import Mathlib

set_option maxHeartbeats 1000000

/-! Shallow embedding of the version-bump/tag workflow of `shore`
(`src/shore/__main__.py`), together with the checks runner, the publish
loop, the `slam test` aggregation (`src/slam/ext/application/test.py`) and
the license-text wrapper (`src/shut/util/external/licenses.py`).

File contents are modelled as `List Char` (Python slices `str` objects by
code point), the filesystem as a total map `String → List Char`, and the
interaction with `git` through two status snapshots (before and after
`git add`) plus a trace of emitted git actions. -/

/-! ### Versions

The module `shore.util.version` is not part of the sources, so the
version type, its parser, its string form and `bump_version` are modelled
from the spec: "a `Version` (parsed semantic version with
major/minor/patch/prerelease/build fields, totally ordered,
string-round-trippable)". -/

/-- Numeric value of a decimal digit character (anything else maps to 9;
it is only applied to digits). -/
def charVal (c : Char) : Nat :=
  match c with
  | '0' => 0
  | '1' => 1
  | '2' => 2
  | '3' => 3
  | '4' => 4
  | '5' => 5
  | '6' => 6
  | '7' => 7
  | '8' => 8
  | _ => 9

/-- Little-endian decimal digit characters of `n`, with explicit fuel so
that the definition is structurally recursive (and hence reducible by the
kernel). -/
def natCharsAux : Nat → Nat → List Char
  | 0, _ => []
  | _ + 1, 0 => []
  | fuel + 1, n + 1 => Nat.digitChar ((n + 1) % 10) :: natCharsAux fuel ((n + 1) / 10)

/-- Decimal representation of a natural number, as characters. -/
def natStr (n : Nat) : List Char :=
  if n = 0 then ['0'] else (natCharsAux n n).reverse

/-- Big-endian decimal reading of a character list. -/
def chars2nat (l : List Char) : Nat :=
  l.foldl (fun n c => 10 * n + charVal c) 0

/-- Parse a nonempty all-digit character list as a natural number. -/
def natParse (l : List Char) : Option Nat :=
  if l ≠ [] ∧ l.all Char.isDigit then some (chars2nat l) else none

/-- Modelled from the spec: a parsed semantic version. Prerelease and
build are kept as raw character sequences. -/
structure Version where
  major : Nat
  minor : Nat
  patch : Nat
  prerelease : Option (List Char)
  build : Option (List Char)
deriving DecidableEq, Repr

/-- Modelled from the spec: the `str()` form of a version,
`major.minor.patch[-prerelease][+build]`. The nesting is fully
right-associated. -/
def verStr (v : Version) : List Char :=
  natStr v.major ++ ('.' :: (natStr v.minor ++ ('.' :: (natStr v.patch
    ++ ((match v.prerelease with
         | none => []
         | some p => '-' :: p)
        ++ (match v.build with
            | none => []
            | some b => '+' :: b))))))

/-- Split a character list at the first occurrence of `c`: the part before
it, and (when `c` occurs) the part after it. -/
def splitFirst (c : Char) : List Char → List Char × Option (List Char)
  | [] => ([], none)
  | x :: xs =>
    if x = c then ([], some xs)
    else
      let r := splitFirst c xs
      (x :: r.1, r.2)

/-- Modelled from the spec: parse a semantic version string. The build
part is everything after the first `+`, the prerelease everything after
the first `-` of the remainder, and the core must be three dot-separated
decimal numbers. -/
def parseVC (s : List Char) : Option Version :=
  let pb := splitFirst '+' s
  let pp := splitFirst '-' pb.1
  let m1 := splitFirst '.' pp.1
  match m1.2 with
  | none => none
  | some r1 =>
    match (splitFirst '.' r1).2 with
    | none => none
    | some r2 =>
      if '.' ∈ r2 then none
      else
        match natParse m1.1, natParse (splitFirst '.' r1).1, natParse r2 with
        | some a, some b, some c => some ⟨a, b, c, pp.2, pb.2⟩
        | _, _, _ => none

/-- `shore.util.version.parse_version`, modelled from the spec. -/
def parse_version (s : String) : Option Version := parseVC s.data

/-- A version whose string form round-trips through the parser: its
prerelease part (when present) must not contain `+`. -/
def Version.wellFormed (v : Version) : Bool :=
  match v.prerelease with
  | none => true
  | some p => decide ('+' ∉ p)

/-- Lexicographic order on character lists (used for prerelease
comparison). -/
def lexLt : List Char → List Char → Bool
  | [], [] => false
  | [], _ :: _ => true
  | _ :: _, [] => false
  | a :: as, b :: bs => if a < b then true else if b < a then false else lexLt as bs

/-- Prerelease comparison: a version with a prerelease precedes the same
version without one. -/
def preLtb : Option (List Char) → Option (List Char) → Bool
  | some _, none => true
  | some p, some q => lexLt p q
  | none, _ => false

/-- Modelled from the spec: the total order on versions (`<` in the
source). -/
def Version.ltb (a b : Version) : Bool :=
  if a.major ≠ b.major then decide (a.major < b.major)
  else if a.minor ≠ b.minor then decide (a.minor < b.minor)
  else if a.patch ≠ b.patch then decide (a.patch < b.patch)
  else preLtb a.prerelease b.prerelease

/-- The bump kinds used by `_bump` (`post`, `patch`, `minor`, `major`). -/
inductive BumpKind where
  | post
  | patch
  | minor
  | major
deriving DecidableEq, Repr

/-- Modelled from the spec: `shore.util.version.bump_version`. Major,
minor and patch bumps increment the respective field and reset the lower
ones; a post bump attaches a post marker in the build field. -/
def bump_version (v : Version) (kind : BumpKind) : Version :=
  match kind with
  | .major => ⟨v.major + 1, 0, 0, none, none⟩
  | .minor => ⟨v.major, v.minor + 1, 0, none, none⟩
  | .patch => ⟨v.major, v.minor, v.patch + 1, none, none⟩
  | .post => ⟨v.major, v.minor, v.patch, v.prerelease, some ['p', 'o', 's', 't']⟩

/-! ### The bump pipeline (`_bump`, `src/shore/__main__.py` lines 384-519)

The embedding starts after argument parsing and subject loading: the
subject (its canonical version, name, tag format and whether it is a
package managed by a mono-versioned monorepo), the collected version refs,
the filesystem, the path normalizer `os.path.normpath(os.path.abspath(.))`
and the two `git status --porcelain` snapshots (before and after
`git add`) are inputs. The `_run_checks` call at lines 399-400 has its
result ignored by the source and is therefore not modelled. -/

/-- A located version string: file, code-point offsets `[start, end)` and
the literal current value (`shore.core.plugins.VersionRef`). -/
structure VersionRef where
  filename : String
  start : Nat
  «end» : Nat
  value : String
deriving DecidableEq, Repr

/-- One line of `git status --porcelain`: a mode character (`A`, `M`, ...)
and a file name. -/
structure GitFile where
  mode : Char
  filename : String
deriving DecidableEq, Repr

/-- Git effects emitted by the tagging phase. -/
inductive GitAction where
  | add (files : List String)
  | commit (message : String)
  | tag (name : String) (force : Bool)
deriving DecidableEq, Repr

/-- How `_bump` terminates: an `argparse` usage error (`parser.error`,
which prints usage and exits with a nonzero code), a failed `assert`, an
exception from `parse_version`, an unreachable-state `RuntimeError`, or a
regular return with an exit code (returning `None` makes `main` exit 0). -/
inductive BumpOutcome where
  | usageError (msg : String)
  | assertionError (msg : String)
  | parseError
  | runtimeError
  | exit (code : Nat)
deriving DecidableEq, Repr

/-- Result of a bump invocation: outcome, final filesystem, trace of git
actions. -/
structure BumpResult where
  outcome : BumpOutcome
  fs : String → List Char
  git : List GitAction

/-- The flags of the `bump` subcommand (argparse `args`). `--version`
carries an optional value; all others are booleans. -/
structure BumpArgs where
  version : Option String
  major : Bool
  minor : Bool
  patch : Bool
  post : Bool
  ci : Bool
  show_ : Bool
  get_single_version : Bool
  status : Bool
  force : Bool
  tag : Bool
  dry : Bool

/-- Environment of a bump invocation: the loaded subject, its version
refs, the filesystem and the git snapshots. -/
structure BumpEnv where
  subject_version : Version
  subject_name : String
  managed_by_monorepo : Bool
  version_refs : List VersionRef
  fs : String → List Char
  ci_version : Version
  normalize : String → String
  porcelain0 : List GitFile
  porcelain1 : List GitFile
  tag_of : Version → String

/-- Python truthiness of an optional string argument (`None` and the empty
string are falsy). -/
def optTruthy : Option String → Bool
  | none => false
  | some s => s != ""

/-- `sum(map(bool, options))`: how many of the flags are set. -/
def countTrue : List Bool → Nat
  | [] => 0
  | b :: l => (if b then 1 else 0) + countTrue l

/-- `_report_conflict` (lines 65-72): if at least two of the named options
are present, produce a parser error message. -/
def _report_conflict (opts : List (String × Bool)) : Option String :=
  let has_opts := (opts.filter fun p => p.2).map fun p => "--" ++ p.1
  if has_opts.length > 1 then
    some ("conflicting options: " ++ String.intercalate " and " has_opts)
  else none

/-- The nine operations of `bump` (line 392-393):
`(post, patch, minor, major, version, show, ci, get_single_version,
status)`. -/
def bumpOptions (args : BumpArgs) : List Bool :=
  [args.post, args.patch, args.minor, args.major, optTruthy args.version,
   args.show_, args.ci, args.get_single_version, args.status]

/-- Lines 446-447: `any(parse_version(x.value) != subject.version for x in
version_refs)`. A ref whose value does not parse is treated as differing
(the Python raises there; no claim depends on that case). -/
def is_inconsistent (refs : List VersionRef) (subject_version : Version) : Bool :=
  refs.any fun r => parse_version r.value != some subject_version

/-- Point update of the filesystem map (`open(name, 'w').write`). -/
def fsWrite (fs : String → List Char) (name : String) (contents : List Char) :
    String → List Char :=
  fun m => if m = name then contents else fs m

/-- Line 499: `contents[:start] + str(new_version) + contents[end:]`. -/
def splice (contents : List Char) (s e : Nat) (v : List Char) : List Char :=
  contents.take s ++ v ++ contents.drop e

/-- Lines 494-501: rewrite every ref's file in order, splicing the new
version string into `[start, end)`; each write is skipped under `--dry`. -/
def _bump_rewrite (dry : Bool) (refs : List VersionRef) (v : List Char)
    (fs : String → List Char) : String → List Char :=
  refs.foldl
    (fun acc r =>
      if dry then acc
      else fsWrite acc r.filename (splice (acc r.filename) r.start r.«end» v))
    fs

/-- Lines 503-519: the tagging phase, applied to the filesystem `fs'` left
by the rewrite loop. Refuses (exit 1) when the pre-existing staging area
contains a file in added mode; otherwise (except under `--dry`) stages the
ref files, commits only when the post-add status shows a modification, and
creates the tag (force-creating it exactly when `--force` was given). -/
def _bump_tag_phase (args : BumpArgs) (env : BumpEnv) (new_version : Version)
    (fs' : String → List Char) : BumpResult :=
  if args.tag then
    if env.porcelain0.any (fun f => f.mode == 'A') then
      ⟨.exit 1, fs', []⟩
    else
      if args.dry then ⟨.exit 0, fs', []⟩
      else
        let changed_files := env.version_refs.map VersionRef.filename
        ⟨.exit 0, fs',
          GitAction.add changed_files
            :: ((if env.porcelain1.any (fun f => f.mode == 'M') then
                  [GitAction.commit ("(" ++ env.subject_name ++ ") bump version to "
                    ++ String.mk (verStr new_version))]
                 else [])
                ++ [GitAction.tag (env.tag_of new_version) args.force])⟩
  else ⟨.exit 0, fs', []⟩

/-- Lines 486-519: assert that no two refs normalize to the same absolute
path (`len(set(normpath(abspath(f)))) == len(version_refs)`), then rewrite
and run the tagging phase. -/
def _bump_write_and_tag (args : BumpArgs) (env : BumpEnv) (new_version : Version) :
    BumpResult :=
  let n_files := (env.version_refs.map fun r => env.normalize r.filename).dedup
  if n_files.length = env.version_refs.length then
    _bump_tag_phase args env new_version
      (_bump_rewrite args.dry env.version_refs (verStr new_version) env.fs)
  else
    ⟨.assertionError "multiple version refs in one file is not currently supported.",
     env.fs, []⟩

/-- Lines 477-484: reject (unless `--force`) a new version that is lower
than the current one, or whose string form equals the current one's. -/
def _bump_finish (args : BumpArgs) (env : BumpEnv) (new_version : Version) :
    BumpResult :=
  if new_version.ltb env.subject_version && !args.force then
    ⟨.usageError "new version is lower than current version", env.fs, []⟩
  else if (verStr new_version == verStr env.subject_version) && !args.force then
    ⟨.usageError "new version is equal to current version", env.fs, []⟩
  else _bump_write_and_tag args env new_version

/-- Lines 461-475: compute the new version from the selected operation
(`post`, `patch`, `minor`, `major`, `--version VALUE`, `--ci`), then
finish the bump. -/
def _bump_compute (args : BumpArgs) (env : BumpEnv) : BumpResult :=
  if args.post then _bump_finish args env (bump_version env.subject_version .post)
  else if args.patch then _bump_finish args env (bump_version env.subject_version .patch)
  else if args.minor then _bump_finish args env (bump_version env.subject_version .minor)
  else if args.major then _bump_finish args env (bump_version env.subject_version .major)
  else if optTruthy args.version then
    match parse_version (args.version.getD "") with
    | some v => _bump_finish args env v
    | none => ⟨.parseError, env.fs, []⟩
  else if args.ci then _bump_finish args env env.ci_version
  else ⟨.runtimeError, env.fs, []⟩

/-- `_bump` (lines 384-519), after the subject has been loaded. The gates
appear in source order: the two `_report_conflict` calls, the
operation-count check, `--status`, the managed-by-monorepo check, the
empty-refs check, `--show`, the consistency gates, `--get-single-version`,
and finally the version computation, rewrite and tagging. -/
def bump (args : BumpArgs) (env : BumpEnv) : BumpResult :=
  match _report_conflict [("version", optTruthy args.version), ("ci", args.ci)] with
  | some msg => ⟨.usageError msg, env.fs, []⟩
  | none =>
  match _report_conflict [("major", args.major), ("minor", args.minor),
      ("patch", args.patch), ("version", optTruthy args.version)] with
  | some msg => ⟨.usageError msg, env.fs, []⟩
  | none =>
    if countTrue (bumpOptions args) = 0 then
      ⟨.usageError "no operation specified", env.fs, []⟩
    else if 1 < countTrue (bumpOptions args) then
      ⟨.usageError "multiple operations specified", env.fs, []⟩
    else if args.status then ⟨.exit 0, env.fs, []⟩
    else if env.managed_by_monorepo && !args.force then
      ⟨.usageError "cannot bump individual package version if managed by monorepo.",
       env.fs, []⟩
    else if env.version_refs.isEmpty then ⟨.usageError "no version refs found", env.fs, []⟩
    else if args.show_ then ⟨.exit 0, env.fs, []⟩
    else if is_inconsistent env.version_refs env.subject_version && !args.force then
      ⟨.exit 1, env.fs, []⟩
    else if is_inconsistent env.version_refs env.subject_version && args.get_single_version then
      ⟨.exit 1, env.fs, []⟩
    else if args.get_single_version then ⟨.exit 0, env.fs, []⟩
    else _bump_compute args env

/-! ### The checks runner (`_run_checks`, lines 278-305)

Only the levels of the triggered check results matter for the exit
status. -/

/-- `shore.core.plugins.CheckResult.Level`. -/
inductive Level where
  | INFO
  | WARNING
  | ERROR
deriving DecidableEq, Repr

/-- Numeric severity used to take the maximum level. -/
def levelVal : Level → Nat
  | .INFO => 0
  | .WARNING => 1
  | .ERROR => 2

/-- `max(x.level for x in checks)` (the list is nonempty there; `INFO` is
the bottom element). -/
def maxLevel (levels : List Level) : Level :=
  levels.foldl (fun a b => if levelVal a < levelVal b then b else a) Level.INFO

/-- Lines 286-294: the `status` local variable computed from the maximal
level and `treat_warnings_as_errors`. -/
def checkStatusOf (max_level : Level) (treat_warnings_as_errors : Bool) : Nat :=
  match max_level with
  | .INFO => 0
  | .WARNING => if treat_warnings_as_errors then 1 else 0
  | .ERROR => 1

/-- `_run_checks` (lines 278-305): returns 0 when no check triggered;
otherwise the source computes `status` (see `checkStatusOf`), logs
"exiting with status %s" with it, and then returns the literal `1`
(line 305). -/
def _run_checks (levels : List Level) (treat_warnings_as_errors : Bool) : Nat :=
  if levels = [] then 0
  else
    let _status := checkStatusOf (maxLevel levels) treat_warnings_as_errors
    1

/-! ### `wrap_license_text` (`src/shut/util/external/licenses.py`
lines 106-126) -/

/-- Python `text.split(c)` for a single-character separator: splits at
every occurrence, keeping empty pieces; the result is always nonempty. -/
def splitChar (c : Char) : List Char → List (List Char)
  | [] => [[]]
  | x :: xs =>
    if x = c then [] :: splitChar c xs
    else
      match splitChar c xs with
      | [] => [[x]]
      | w :: ws => (x :: w) :: ws

/-- Python `sep.join(pieces)` for a single-character separator. -/
def joinChar (c : Char) (ls : List (List Char)) : List Char :=
  List.intercalate [c] ls

/-- Faithful embedding of `wrap_license_text` (default width 79): lines
are split on spaces; a line longer than `width` is re-wrapped by flushing
the pending word buffer whenever `length + 1 + len(word) >= width`. The
running `length` starts at `-1`, so it is an `Int`. -/
def wrap_license_text (license_text : List Char) (width : Nat) : List Char :=
  let lines := (splitChar '\n' license_text).foldl
    (fun (lines : List (List Char)) raw_line =>
      let line := splitChar ' ' raw_line
      let length : Int := ((line.map List.length).sum : Int) + line.length - 1
      if length > (width : Int) then
        let st := line.foldl
          (fun (st : List (List Char) × List (List Char) × Int) word =>
            if st.2.2 + 1 + word.length ≥ (width : Int) then
              (st.1 ++ [joinChar ' ' st.2.1], [], -1)
            else
              (st.1, st.2.1 ++ [word], st.2.2 + word.length + 1))
          (lines, [], -1)
        if st.2.1 ≠ [] then st.1 ++ [joinChar ' ' st.2.1] else st.1
      else lines ++ [joinChar ' ' line])
    []
  joinChar '\n' lines

/-! ### Publish and test aggregation

`_publish` (lines 548-603) runs `_run_publisher` for every selected
target; a target's failure is caught inside `_run_publisher` (its
`try/except` returns `False`) and only downgrades the overall status.
`TestCommand.handle` (`src/slam/ext/application/test.py` lines 129-166)
likewise runs every selected test and aggregates exit codes. Each target
is an input pair of its name and its run result. -/

/-- Lines 597-603: `status = 0; for each publisher: if not
_run_publisher(...): status = 1; return status`. The first component
traces every attempted target in order. -/
def _publish_loop (targets : List (String × Bool)) : List String × Nat :=
  targets.foldl (fun acc t => (acc.1 ++ [t.1], if t.2 then acc.2 else 1)) ([], 0)

/-- `TestCommand.handle`, reduced to its exit-code logic: returns 1 when
no tests are configured; otherwise runs every selected test (the first
component traces them) and returns 0 exactly when every exit code is 0
(`set(results.values()) == {0}`). -/
def test_handle (tests : List (String × Nat)) : List String × Nat :=
  if tests = [] then ([], 1)
  else (tests.map Prod.fst, if (tests.map Prod.snd).all (· == 0) then 0 else 1)

/-! ### Concrete inputs used by witnesses and counterexamples -/

/-- A one-ref environment: `setup.py` holds exactly the version string
`0.1.0`, matching the subject version; the staging area is clean before
`git add` and shows the staged file as modified afterwards. -/
def exEnv : BumpEnv where
  subject_version := ⟨0, 1, 0, none, none⟩
  subject_name := "pkg"
  managed_by_monorepo := false
  version_refs := [⟨"setup.py", 0, 5, "0.1.0"⟩]
  fs := fun _ => "0.1.0".data
  ci_version := ⟨0, 0, 0, none, none⟩
  normalize := fun s => s
  porcelain0 := []
  porcelain1 := [⟨'M', "setup.py"⟩]
  tag_of := fun v => String.mk ('v' :: verStr v)

/-- `shore bump --patch --tag --dry` on `exEnv`. -/
def exArgsDryTag : BumpArgs where
  version := none
  major := false
  minor := false
  patch := true
  post := false
  ci := false
  show_ := false
  get_single_version := false
  status := false
  force := false
  tag := true
  dry := true

/-- `shore bump --patch` (no tag, no dry). -/
def exArgsPatch : BumpArgs := { exArgsDryTag with tag := false, dry := false }

/-- `shore bump --patch --tag` (no dry). -/
def exArgsTag : BumpArgs := { exArgsDryTag with dry := false }

/-- `exEnv` with a dirty staging area: one file already in added mode. -/
def exEnvAdded : BumpEnv := { exEnv with porcelain0 := [⟨'A', "other.py"⟩] }

/-- `exEnv` with two refs resolving to the same normalized path. -/
def exEnvDup : BumpEnv :=
  { exEnv with version_refs := [⟨"setup.py", 0, 5, "0.1.0"⟩, ⟨"setup.py", 10, 15, "0.1.0"⟩] }

/-- `exEnv` with every ref's value disagreeing with the subject version. -/
def exEnvDisagree : BumpEnv :=
  { exEnv with version_refs := [⟨"setup.py", 0, 5, "0.2.0"⟩] }

/-- `shore bump --major --minor`: two conflicting operations. -/
def exArgsConflict : BumpArgs :=
  { exArgsDryTag with patch := false, major := true, minor := true, tag := false, dry := false }

/-! ### Round-trip lemmas: the string form of a well-formed version parses
back to the same version -/

theorem charVal_digitChar {d : Nat} (h : d < 10) : charVal (Nat.digitChar d) = d := by
  interval_cases d <;> rfl

theorem isDigit_digitChar {d : Nat} (h : d < 10) : (Nat.digitChar d).isDigit = true := by
  interval_cases d <;> rfl

theorem natCharsAux_eq (fuel : Nat) :
    ∀ n, n ≤ fuel → natCharsAux fuel n = (Nat.digits 10 n).map Nat.digitChar := by
  induction fuel with
  | zero =>
    intro n hn
    interval_cases n
    simp [natCharsAux]
  | succ f ih =>
    intro n hn
    match n with
    | 0 => simp [natCharsAux]
    | m + 1 =>
      rw [natCharsAux, Nat.digits_def' (by norm_num : 1 < 10) (Nat.succ_pos m),
        List.map_cons]
      congr 1
      have h1 : (m + 1) / 10 < m + 1 := Nat.div_lt_self (Nat.succ_pos m) (by norm_num)
      exact ih _ (Nat.lt_succ_iff.mp (lt_of_lt_of_le h1 hn))

theorem natStr_eq {n : Nat} (h : n ≠ 0) :
    natStr n = ((Nat.digits 10 n).map Nat.digitChar).reverse := by
  rw [natStr, if_neg h, natCharsAux_eq n n le_rfl]

theorem mem_natStr_isDigit {c : Char} {n : Nat} (h : c ∈ natStr n) : c.isDigit = true := by
  by_cases h0 : n = 0
  · subst h0
    have h1 : natStr 0 = ['0'] := rfl
    rw [h1, List.mem_singleton] at h
    subst h
    rfl
  · rw [natStr_eq h0, List.mem_reverse] at h
    obtain ⟨d, hd, rfl⟩ := List.mem_map.mp h
    exact isDigit_digitChar (Nat.digits_lt_base (by norm_num) hd)

theorem not_mem_natStr {c : Char} (hc : c.isDigit = false) (n : Nat) : c ∉ natStr n :=
  fun h => by rw [mem_natStr_isDigit h] at hc; cases hc

theorem natStr_ne_nil (n : Nat) : natStr n ≠ [] := by
  by_cases h0 : n = 0
  · subst h0; simp [natStr]
  · rw [natStr_eq h0]
    simp [Nat.digits_ne_nil_iff_ne_zero, h0]

theorem chars2nat_foldl (l : List Char) : ∀ acc : Nat,
    l.foldl (fun n c => 10 * n + charVal c) acc
      = acc * 10 ^ l.length + Nat.ofDigits 10 ((l.map charVal).reverse) := by
  induction l with
  | nil => intro acc; simp [Nat.ofDigits]
  | cons c cs ih =>
    intro acc
    rw [List.foldl_cons, ih, List.map_cons, List.reverse_cons, Nat.ofDigits_append]
    simp only [Nat.ofDigits_singleton, List.length_reverse, List.length_map,
      List.length_cons, Nat.cast_id]
    ring

theorem chars2nat_natStr (n : Nat) : chars2nat (natStr n) = n := by
  by_cases h0 : n = 0
  · subst h0; rfl
  · rw [chars2nat, chars2nat_foldl, natStr_eq h0]
    rw [List.map_reverse, List.reverse_reverse, List.map_map]
    have hmap : (Nat.digits 10 n).map (charVal ∘ Nat.digitChar) = Nat.digits 10 n := by
      conv_rhs => rw [← List.map_id (Nat.digits 10 n)]
      apply List.map_congr_left
      intro d hd
      simp only [Function.comp_apply, id_eq]
      exact charVal_digitChar (Nat.digits_lt_base (by norm_num) hd)
    rw [hmap, Nat.ofDigits_digits, zero_mul, zero_add]

theorem natParse_natStr (n : Nat) : natParse (natStr n) = some n := by
  have h2 : (natStr n).all Char.isDigit = true := by
    rw [List.all_eq_true]
    intro c hc
    exact mem_natStr_isDigit hc
  rw [natParse, if_pos ⟨natStr_ne_nil n, h2⟩, chars2nat_natStr]

theorem splitFirst_cons_self (c : Char) (l : List Char) :
    splitFirst c (c :: l) = ([], some l) := by
  simp [splitFirst]

theorem splitFirst_cons_ne {x c : Char} (h : x ≠ c) (l : List Char) :
    splitFirst c (x :: l) = (x :: (splitFirst c l).1, (splitFirst c l).2) := by
  simp [splitFirst, h]

theorem splitFirst_not_mem {c : Char} : ∀ {l : List Char}, c ∉ l → splitFirst c l = (l, none) := by
  intro l
  induction l with
  | nil => intro _; rfl
  | cons x xs ih =>
    intro h
    have hx : x ≠ c := fun he => h (he ▸ List.mem_cons_self x xs)
    have hxs : c ∉ xs := fun hm => h (List.mem_cons_of_mem x hm)
    rw [splitFirst_cons_ne hx, ih hxs]

theorem splitFirst_append_left {c : Char} : ∀ {l1 : List Char} (l2 : List Char), c ∉ l1 →
    splitFirst c (l1 ++ l2) = (l1 ++ (splitFirst c l2).1, (splitFirst c l2).2) := by
  intro l1
  induction l1 with
  | nil => intro l2 _; simp
  | cons x xs ih =>
    intro l2 h
    have hx : x ≠ c := fun he => h (he ▸ List.mem_cons_self x xs)
    have hxs : c ∉ xs := fun hm => h (List.mem_cons_of_mem x hm)
    rw [List.cons_append, splitFirst_cons_ne hx, ih l2 hxs]
    simp

/-- Splitting at a non-digit, non-dot character walks over the
`major.minor.patch` core. -/
theorem splitFirst_core (ch : Char) (hch : ch.isDigit = false) (hne : ch ≠ '.')
    (a b c : Nat) (tail : List Char) :
    splitFirst ch (natStr a ++ ('.' :: (natStr b ++ ('.' :: (natStr c ++ tail)))))
      = (natStr a ++ ('.' :: (natStr b ++ ('.' :: (natStr c ++ (splitFirst ch tail).1)))),
         (splitFirst ch tail).2) := by
  rw [splitFirst_append_left _ (not_mem_natStr hch a),
    splitFirst_cons_ne (Ne.symm hne),
    splitFirst_append_left _ (not_mem_natStr hch b),
    splitFirst_cons_ne (Ne.symm hne),
    splitFirst_append_left _ (not_mem_natStr hch c)]

/-- Splitting the core at `.` peels off the leading number. -/
theorem splitFirst_dot (a : Nat) (rest : List Char) :
    splitFirst '.' (natStr a ++ '.' :: rest) = (natStr a, some rest) := by
  rw [splitFirst_append_left _ (not_mem_natStr (by rfl) a), splitFirst_cons_self]
  simp

/-- Parsing a string of the shape
`natStr a ++ "." ++ natStr b ++ "." ++ natStr c ++ P ++ Q` recovers the
components, given how `P ++ Q` splits at `+` and `P` splits at `-`. -/
theorem parseVC_core (a b c : Nat) (pre bld : Option (List Char)) (P Q : List Char)
    (hplus : splitFirst '+' (P ++ Q) = (P, bld))
    (hminus : splitFirst '-' P = ([], pre)) :
    parseVC (natStr a ++ ('.' :: (natStr b ++ ('.' :: (natStr c ++ (P ++ Q))))))
      = some ⟨a, b, c, pre, bld⟩ := by
  have step1 := splitFirst_core '+' (by decide) (by decide) a b c (P ++ Q)
  rw [hplus] at step1
  have step2 := splitFirst_core '-' (by decide) (by decide) a b c P
  rw [hminus] at step2
  simp only [List.append_nil] at step2
  rw [parseVC]
  simp only [step1, step2, splitFirst_dot a (natStr b ++ ('.' :: natStr c)),
    splitFirst_dot b (natStr c)]
  rw [if_neg (not_mem_natStr (by decide) c)]
  simp only [natParse_natStr]

/-- Modelled round-trip property from the spec ("string-round-trippable"):
parsing the string form of a well-formed version yields that version. -/
theorem parseVC_verStr (v : Version) (h : v.wellFormed = true) :
    parseVC (verStr v) = some v := by
  obtain ⟨a, b, c, pre, bld⟩ := v
  cases pre with
  | none =>
    cases bld with
    | none =>
      have hv : verStr ⟨a, b, c, none, none⟩
          = natStr a ++ ('.' :: (natStr b ++ ('.' :: (natStr c
              ++ (([] : List Char) ++ ([] : List Char)))))) := rfl
      rw [hv]
      exact parseVC_core a b c none none [] [] (by simp [splitFirst]) (by simp [splitFirst])
    | some q =>
      have hv : verStr ⟨a, b, c, none, some q⟩
          = natStr a ++ ('.' :: (natStr b ++ ('.' :: (natStr c
              ++ (([] : List Char) ++ ('+' :: q)))))) := rfl
      rw [hv]
      exact parseVC_core a b c none (some q) [] ('+' :: q)
        (by simpa using splitFirst_cons_self '+' q) (by simp [splitFirst])
  | some p =>
    have hp : '+' ∉ p := by
      simp only [Version.wellFormed] at h
      exact of_decide_eq_true h
    have hPplus : '+' ∉ ('-' :: p) := by
      intro hm
      rcases List.mem_cons.mp hm with h1 | h1
      · exact absurd h1 (by decide)
      · exact hp h1
    cases bld with
    | none =>
      have hv : verStr ⟨a, b, c, some p, none⟩
          = natStr a ++ ('.' :: (natStr b ++ ('.' :: (natStr c
              ++ (('-' :: p) ++ ([] : List Char)))))) := rfl
      rw [hv]
      exact parseVC_core a b c (some p) none ('-' :: p) []
        (by simpa using splitFirst_not_mem hPplus) (splitFirst_cons_self '-' p)
    | some q =>
      have hv : verStr ⟨a, b, c, some p, some q⟩
          = natStr a ++ ('.' :: (natStr b ++ ('.' :: (natStr c
              ++ (('-' :: p) ++ ('+' :: q)))))) := rfl
      rw [hv]
      exact parseVC_core a b c (some p) (some q) ('-' :: p) ('+' :: q)
        (by rw [splitFirst_append_left _ hPplus, splitFirst_cons_self]; simp)
        (splitFirst_cons_self '-' p)

/-! ### Lemmas about the rewrite loop and the gates of `bump` -/

theorem fsWrite_same (fs : String → List Char) (name : String) (c : List Char) :
    fsWrite fs name c name = c := by
  simp [fsWrite]

theorem fsWrite_other (fs : String → List Char) (name : String) (c : List Char)
    (m : String) (h : m ≠ name) : fsWrite fs name c m = fs m := by
  simp [fsWrite, h]

theorem bump_rewrite_cons (r0 : VersionRef) (rest : List VersionRef) (v : List Char)
    (fs : String → List Char) :
    _bump_rewrite false (r0 :: rest) v fs
      = _bump_rewrite false rest v
          (fsWrite fs r0.filename (splice (fs r0.filename) r0.start r0.«end» v)) := by
  simp [_bump_rewrite]

theorem bump_rewrite_unchanged (refs : List VersionRef) (v : List Char) :
    ∀ (fs : String → List Char) (name : String),
      (∀ r ∈ refs, r.filename ≠ name) → _bump_rewrite false refs v fs name = fs name := by
  induction refs with
  | nil => intro fs name _; rfl
  | cons r0 rest ih =>
    intro fs name h
    have h0 : r0.filename ≠ name := h r0 (List.mem_cons_self r0 rest)
    have hrest : ∀ r ∈ rest, r.filename ≠ name := fun r hr => h r (List.mem_cons_of_mem r0 hr)
    rw [bump_rewrite_cons, ih _ name hrest, fsWrite_other _ _ _ _ (Ne.symm h0)]

theorem bump_rewrite_at_ref (refs : List VersionRef) (v : List Char) :
    ∀ (fs : String → List Char) (r : VersionRef), r ∈ refs →
      refs.Pairwise (fun a b => a.filename ≠ b.filename) →
      _bump_rewrite false refs v fs r.filename = splice (fs r.filename) r.start r.«end» v := by
  induction refs with
  | nil => intro fs r hr _; cases hr
  | cons r0 rest ih =>
    intro fs r hr hpw
    rw [bump_rewrite_cons]
    rcases List.mem_cons.mp hr with rfl | hr2
    · rw [bump_rewrite_unchanged rest v _ r.filename
        (fun r2 hr2 => Ne.symm ((List.pairwise_cons.mp hpw).1 r2 hr2)), fsWrite_same]
    · have hne : r.filename ≠ r0.filename :=
        fun he => (List.pairwise_cons.mp hpw).1 r hr2 he.symm
      rw [ih _ r hr2 (List.pairwise_cons.mp hpw).2, fsWrite_other _ _ _ _ hne]

theorem splice_extract (c : List Char) (s e : Nat) (v : List Char) (h : s ≤ c.length) :
    ((splice c s e v).drop s).take v.length = v := by
  have h2 : splice c s e v = c.take s ++ (v ++ c.drop e) := by
    rw [splice, List.append_assoc]
  have hlen : (c.take s).length = s := by
    rw [List.length_take]
    omega
  calc ((splice c s e v).drop s).take v.length
      = ((c.take s ++ (v ++ c.drop e)).drop (c.take s).length).take v.length := by
        rw [h2, hlen]
    _ = (v ++ c.drop e).take v.length := by rw [List.drop_left]
    _ = v := List.take_left v _

/-- If the mapped normalized paths are distinct, so are the raw file
names. -/
theorem pairwise_of_nodup_map (refs : List VersionRef) (f : String → String)
    (h : (refs.map fun r => f r.filename).Nodup) :
    refs.Pairwise fun a b => a.filename ≠ b.filename := by
  have h2 := List.pairwise_map.mp h
  exact h2.imp fun hxy he => hxy (by rw [he])

theorem countTrue_filter (l : List (String × Bool)) :
    countTrue (l.map fun p => p.2) = (l.filter fun p => p.2).length := by
  induction l with
  | nil => rfl
  | cons p ps ih =>
    by_cases hp : p.2 = true
    all_goals simp [countTrue, List.filter_cons, hp, ih]
    all_goals try omega

theorem report_conflict_none (l : List (String × Bool)) :
    _report_conflict l = none ↔ countTrue (l.map fun p => p.2) ≤ 1 := by
  rw [countTrue_filter]
  simp only [_report_conflict]
  split_ifs with h
  · simp only [List.length_map] at h
    constructor
    · intro hc
      cases hc
    · intro hc
      exact absurd hc (by omega)
  · simp only [List.length_map] at h
    constructor
    · intro _
      omega
    · intro _
      rfl

/-- Any two option flags taken from the nine bump operations count at most
as much as all nine. -/
theorem countTrue_le_all : ∀ b1 b2 b3 b4 b5 b6 b7 b8 b9 : Bool,
    countTrue [b5, b7] ≤ countTrue [b1, b2, b3, b4, b5, b6, b7, b8, b9] ∧
    countTrue [b4, b3, b2, b5] ≤ countTrue [b1, b2, b3, b4, b5, b6, b7, b8, b9] := by
  decide

theorem is_inconsistent_of_all (refs : List VersionRef) (sv : Version) (hne : refs ≠ [])
    (h : ∀ r ∈ refs, parse_version r.value ≠ some sv) :
    is_inconsistent refs sv = true := by
  rw [is_inconsistent, List.any_eq_true]
  rcases refs with _ | ⟨r, rs⟩
  · exact absurd rfl hne
  · exact ⟨r, List.mem_cons_self r rs, by simp [h r (List.mem_cons_self r rs)]⟩

/-! ### Claim theorems -/

/-- Claim C1: for every version ref with valid offsets `[start, end)` into
its file's contents, the (non-dry) rewrite loop of `_bump` replaces
exactly that range with the string form of the new version: the rewritten
file is the old prefix before `start`, then `str(new_version)`, then the
old suffix from `end`; re-reading the rewritten range after the splice and
parsing it yields the new version. -/
theorem bump_rewrite_splices_and_reparses (refs : List VersionRef)
    (fs : String → List Char) (nv : Version) (r : VersionRef)
    (hpw : refs.Pairwise fun a b => a.filename ≠ b.filename)
    (hr : r ∈ refs)
    (hstart : r.start ≤ (fs r.filename).length)
    (hwf : nv.wellFormed = true) :
    _bump_rewrite false refs (verStr nv) fs r.filename
        = (fs r.filename).take r.start ++ verStr nv ++ (fs r.filename).drop r.«end» ∧
    ((_bump_rewrite false refs (verStr nv) fs r.filename).drop r.start).take
        (verStr nv).length = verStr nv ∧
    parse_version (String.mk (((_bump_rewrite false refs (verStr nv) fs r.filename).drop
        r.start).take (verStr nv).length)) = some nv := by
  have h1 := bump_rewrite_at_ref refs (verStr nv) fs r hr hpw
  refine ⟨h1, ?_, ?_⟩
  · rw [h1]
    exact splice_extract _ _ _ _ hstart
  · rw [h1, splice_extract _ _ _ _ hstart]
    show parseVC (verStr nv) = some nv
    exact parseVC_verStr nv hwf

/-- Witness for C1 at a concrete ref and version. -/
theorem bump_rewrite_splices_and_reparses_witness :
    _bump_rewrite false [⟨"setup.py", 0, 5, "0.1.0"⟩] (verStr ⟨0, 1, 1, none, none⟩)
        (fun _ => "0.1.0".data) "setup.py"
        = ("0.1.0".data).take 0 ++ verStr ⟨0, 1, 1, none, none⟩ ++ ("0.1.0".data).drop 5 ∧
    ((_bump_rewrite false [⟨"setup.py", 0, 5, "0.1.0"⟩] (verStr ⟨0, 1, 1, none, none⟩)
        (fun _ => "0.1.0".data) "setup.py").drop 0).take
        (verStr ⟨0, 1, 1, none, none⟩).length = verStr ⟨0, 1, 1, none, none⟩ ∧
    parse_version (String.mk (((_bump_rewrite false [⟨"setup.py", 0, 5, "0.1.0"⟩]
        (verStr ⟨0, 1, 1, none, none⟩) (fun _ => "0.1.0".data) "setup.py").drop 0).take
        (verStr ⟨0, 1, 1, none, none⟩).length)) = some ⟨0, 1, 1, none, none⟩ :=
  bump_rewrite_splices_and_reparses [⟨"setup.py", 0, 5, "0.1.0"⟩] (fun _ => "0.1.0".data)
    ⟨0, 1, 1, none, none⟩ ⟨"setup.py", 0, 5, "0.1.0"⟩ (by decide) (by decide) (by decide)
    (by decide)

/-- Claim C2: without `--force`, a computed new version that compares
lower than the current version, or whose string form equals the current
version's string form, makes `_bump` abort with a parser error before
rewriting any file; with `--force` these rejections do not occur and the
bump proceeds to the rewrite/tag phase. -/
theorem bump_finish_rejects_lower_or_equal (args : BumpArgs) (env : BumpEnv) (nv : Version) :
    (args.force = false →
      (nv.ltb env.subject_version = true ∨ verStr nv = verStr env.subject_version) →
      ∃ msg, _bump_finish args env nv = ⟨.usageError msg, env.fs, []⟩) ∧
    (args.force = true → _bump_finish args env nv = _bump_write_and_tag args env nv) := by
  constructor
  · intro hf hor
    cases hlt : nv.ltb env.subject_version with
    | true =>
      exact ⟨"new version is lower than current version",
        by simp [_bump_finish, hf, hlt]⟩
    | false =>
      rcases hor with h | heq
      · rw [hlt] at h
        cases h
      · exact ⟨"new version is equal to current version",
          by simp [_bump_finish, hf, hlt, heq]⟩
  · intro hf
    simp [_bump_finish, hf]

/-- Witness for C2: a lower version is rejected at a concrete input. -/
theorem bump_finish_rejects_lower_or_equal_witness :
    ∃ msg, _bump_finish exArgsPatch exEnv ⟨0, 0, 9, none, none⟩
      = ⟨.usageError msg, exEnv.fs, []⟩ :=
  (bump_finish_rejects_lower_or_equal exArgsPatch exEnv ⟨0, 0, 9, none, none⟩).1 rfl
    (Or.inl (by decide))

/-- Claim C3: when every version ref disagrees with the subject's
canonical version, a bump without `--force` is refused with exit code 1
and nothing rewritten; with `--force` the inconsistency is only warned
about and the bump proceeds to the version computation. -/
theorem bump_refused_when_all_refs_disagree (args : BumpArgs) (env : BumpEnv)
    (hops : countTrue (bumpOptions args) = 1)
    (hstatus : args.status = false) (hshow : args.show_ = false)
    (hmanaged : env.managed_by_monorepo = false)
    (hrefs : env.version_refs ≠ [])
    (hdis : ∀ r ∈ env.version_refs, parse_version r.value ≠ some env.subject_version) :
    (args.force = false → bump args env = ⟨.exit 1, env.fs, []⟩) ∧
    (args.force = true → args.get_single_version = false →
      bump args env = _bump_compute args env) := by
  have h9 := countTrue_le_all args.post args.patch args.minor args.major
    (optTruthy args.version) args.show_ args.ci args.get_single_version args.status
  have hopsl : countTrue [args.post, args.patch, args.minor, args.major,
      optTruthy args.version, args.show_, args.ci, args.get_single_version,
      args.status] = 1 := hops
  have hc1 : _report_conflict [("version", optTruthy args.version), ("ci", args.ci)]
      = none := by
    rw [report_conflict_none]
    have h1 := h9.1
    simp only [List.map_cons, List.map_nil]
    omega
  have hc2 : _report_conflict [("major", args.major), ("minor", args.minor),
      ("patch", args.patch), ("version", optTruthy args.version)] = none := by
    rw [report_conflict_none]
    have h2 := h9.2
    simp only [List.map_cons, List.map_nil]
    omega
  have hre : env.version_refs.isEmpty = false := by
    cases hv : env.version_refs with
    | nil => exact absurd hv hrefs
    | cons r rs => rfl
  have hinc : is_inconsistent env.version_refs env.subject_version = true :=
    is_inconsistent_of_all _ _ hrefs hdis
  constructor
  · intro hforce
    simp [bump, hc1, hc2, hops, hstatus, hshow, hmanaged, hforce, hre, hinc]
  · intro hforce hgsv
    simp [bump, hc1, hc2, hops, hstatus, hshow, hmanaged, hforce, hre, hinc, hgsv]

/-- Witness for C3: the one-ref environment whose ref value `0.2.0`
disagrees with the subject version `0.1.0` makes a plain `bump --patch`
exit 1 without touching the filesystem. -/
theorem bump_refused_when_all_refs_disagree_witness :
    bump exArgsPatch exEnvDisagree = ⟨.exit 1, exEnvDisagree.fs, []⟩ :=
  (bump_refused_when_all_refs_disagree exArgsPatch exEnvDisagree (by decide) rfl rfl rfl
    (by decide) (by decide)).1 rfl

/-- Claim C4 counterexample: a `--tag --dry` bump with a clean staging
area terminates successfully without creating any tag (no git action at
all), although the claim as stated promises the tag is created whenever
no added-mode file is staged. -/
theorem bump_tag_dry_creates_no_tag :
    exArgsDryTag.tag = true ∧
    (exEnv.porcelain0.any fun f => f.mode == 'A') = false ∧
    (bump exArgsDryTag exEnv).outcome = .exit 0 ∧
    (bump exArgsDryTag exEnv).git = [] := by
  refine ⟨rfl, rfl, by decide, by decide⟩

/-- Claim C4 (amended): when tagging is requested, a staging area holding
an added-mode file makes the bump fail with exit 1 and no git action
(no tag is created); otherwise, unless `--dry` is given, the changed ref
files are staged, a commit is made exactly when the post-add status shows
a modified-mode file, and the tag is created with force-creation exactly
when `--force` was given. -/
theorem bump_tag_phase_stages_commits_tags (args : BumpArgs) (env : BumpEnv)
    (nv : Version) (fs' : String → List Char) (htag : args.tag = true) :
    (env.porcelain0.any (fun f => f.mode == 'A') = true →
      _bump_tag_phase args env nv fs' = ⟨.exit 1, fs', []⟩) ∧
    (env.porcelain0.any (fun f => f.mode == 'A') = false → args.dry = false →
      _bump_tag_phase args env nv fs'
        = ⟨.exit 0, fs',
           GitAction.add (env.version_refs.map VersionRef.filename)
             :: ((if env.porcelain1.any (fun f => f.mode == 'M') then
                   [GitAction.commit ("(" ++ env.subject_name ++ ") bump version to "
                     ++ String.mk (verStr nv))]
                  else [])
                 ++ [GitAction.tag (env.tag_of nv) args.force])⟩) := by
  constructor
  · intro hA
    simp [_bump_tag_phase, htag, hA]
  · intro hA hdry
    simp [_bump_tag_phase, htag, hA, hdry]

/-- Witness for the amended C4: on the clean one-ref environment the tag
phase stages `setup.py`, commits, and tags without force. -/
theorem bump_tag_phase_stages_commits_tags_witness :
    _bump_tag_phase exArgsTag exEnv ⟨0, 1, 1, none, none⟩ exEnv.fs
      = ⟨.exit 0, exEnv.fs,
         GitAction.add (exEnv.version_refs.map VersionRef.filename)
           :: ((if exEnv.porcelain1.any (fun f => f.mode == 'M') then
                 [GitAction.commit ("(" ++ exEnv.subject_name ++ ") bump version to "
                   ++ String.mk (verStr ⟨0, 1, 1, none, none⟩))]
                else [])
               ++ [GitAction.tag (exEnv.tag_of ⟨0, 1, 1, none, none⟩) exArgsTag.force])⟩ :=
  (bump_tag_phase_stages_commits_tags exArgsTag exEnv ⟨0, 1, 1, none, none⟩ exEnv.fs rfl).2
    rfl rfl

/-- Claim C5: before rewriting anything, `_bump` asserts that the
normalized absolute paths of the collected refs are pairwise distinct
(the count of distinct normalized paths equals the count of refs); when
two refs resolve to the same path the operation fails with an assertion
error and rewrites nothing. -/
theorem bump_asserts_distinct_ref_files (args : BumpArgs) (env : BumpEnv) (nv : Version)
    (h : ¬ (env.version_refs.map fun r => env.normalize r.filename).Nodup) :
    _bump_write_and_tag args env nv
      = ⟨.assertionError "multiple version refs in one file is not currently supported.",
         env.fs, []⟩ := by
  have hsub : (env.version_refs.map fun r => env.normalize r.filename).dedup.length
      ≤ (env.version_refs.map fun r => env.normalize r.filename).length :=
    (List.dedup_sublist _).length_le
  have hlt : (env.version_refs.map fun r => env.normalize r.filename).dedup.length
      < (env.version_refs.map fun r => env.normalize r.filename).length := by
    rcases lt_or_eq_of_le hsub with h1 | h1
    · exact h1
    · exact absurd ((List.Sublist.eq_of_length (List.dedup_sublist _) h1) ▸
        List.nodup_dedup _) h
  have hmaplen : (env.version_refs.map fun r => env.normalize r.filename).length
      = env.version_refs.length := List.length_map _ _
  simp only [_bump_write_and_tag]
  rw [if_neg (by omega)]

/-- Witness for C5: two refs in `setup.py` trip the assertion. -/
theorem bump_asserts_distinct_ref_files_witness :
    _bump_write_and_tag exArgsPatch exEnvDup ⟨0, 1, 1, none, none⟩
      = ⟨.assertionError "multiple version refs in one file is not currently supported.",
         exEnvDup.fs, []⟩ :=
  bump_asserts_distinct_ref_files exArgsPatch exEnvDup ⟨0, 1, 1, none, none⟩ (by decide)

/-- Claim C9: a non-dry tagging bump that is refused because the staging
area contains an added-mode file leaves the ref files already rewritten
with the new version: the staging-area check runs only after the splice
loop, and the error return does not restore the original contents. -/
theorem bump_tag_refusal_leaves_rewrite_applied (args : BumpArgs) (env : BumpEnv)
    (nv : Version)
    (hdry : args.dry = false) (htag : args.tag = true)
    (hA : env.porcelain0.any (fun f => f.mode == 'A') = true)
    (hnd : (env.version_refs.map fun r => env.normalize r.filename).Nodup) :
    (_bump_write_and_tag args env nv).outcome = .exit 1 ∧
    (_bump_write_and_tag args env nv).git = [] ∧
    ∀ r ∈ env.version_refs,
      (_bump_write_and_tag args env nv).fs r.filename
        = (env.fs r.filename).take r.start ++ verStr nv
            ++ (env.fs r.filename).drop r.«end» := by
  have hdd : (env.version_refs.map fun r => env.normalize r.filename).dedup.length
      = env.version_refs.length := by
    rw [List.Nodup.dedup hnd, List.length_map]
  have hres : _bump_write_and_tag args env nv
      = _bump_tag_phase args env nv
          (_bump_rewrite false env.version_refs (verStr nv) env.fs) := by
    simp [_bump_write_and_tag, hdd, hdry]
  have hres2 : _bump_tag_phase args env nv
        (_bump_rewrite false env.version_refs (verStr nv) env.fs)
      = ⟨.exit 1, _bump_rewrite false env.version_refs (verStr nv) env.fs, []⟩ := by
    simp only [_bump_tag_phase, htag, hA, if_true]
  rw [hres, hres2]
  refine ⟨rfl, rfl, ?_⟩
  intro r hr
  exact bump_rewrite_at_ref env.version_refs (verStr nv) env.fs r hr
    (pairwise_of_nodup_map _ _ hnd)

/-- Witness for C9 on the environment with a dirty staging area. -/
theorem bump_tag_refusal_leaves_rewrite_applied_witness :
    (_bump_write_and_tag exArgsTag exEnvAdded ⟨0, 1, 1, none, none⟩).outcome = .exit 1 ∧
    (_bump_write_and_tag exArgsTag exEnvAdded ⟨0, 1, 1, none, none⟩).git = [] ∧
    ∀ r ∈ exEnvAdded.version_refs,
      (_bump_write_and_tag exArgsTag exEnvAdded ⟨0, 1, 1, none, none⟩).fs r.filename
        = (exEnvAdded.fs r.filename).take r.start ++ verStr ⟨0, 1, 1, none, none⟩
            ++ (exEnvAdded.fs r.filename).drop r.«end» :=
  bump_tag_refusal_leaves_rewrite_applied exArgsTag exEnvAdded ⟨0, 1, 1, none, none⟩ rfl rfl
    (by decide) (by decide)

/-- Claim C6 (code bug): `_run_checks` computes the status 0 for an
all-INFO check run (and for warnings without `--treat-warnings-as-errors`)
but then returns the literal 1 at line 305, so `shore checks` exits 1
whenever any check triggered, even when there is no failure; only the
no-checks-triggered path returns 0. -/
theorem run_checks_returns_one_even_without_failures :
    _run_checks [Level.INFO] false = 1 ∧
    checkStatusOf (maxLevel [Level.INFO]) false = 0 ∧
    _run_checks [Level.WARNING] false = 1 ∧
    checkStatusOf (maxLevel [Level.WARNING]) false = 0 ∧
    _run_checks [] false = 0 := by
  decide

/-- Claim C7: conflicting options (`--version` with `--ci`, or two of
`--major`/`--minor`/`--patch`/`--version`), as well as zero or more than
one selected operation, abort `bump` through a parser usage error with the
filesystem untouched and no git action performed. -/
theorem bump_conflicting_options_usage_error (args : BumpArgs) (env : BumpEnv)
    (h : (optTruthy args.version = true ∧ args.ci = true) ∨
         2 ≤ countTrue [args.major, args.minor, args.patch, optTruthy args.version] ∨
         countTrue (bumpOptions args) = 0 ∨ 1 < countTrue (bumpOptions args)) :
    ∃ msg, bump args env = ⟨.usageError msg, env.fs, []⟩ := by
  cases hc1 : _report_conflict [("version", optTruthy args.version), ("ci", args.ci)] with
  | some msg => exact ⟨msg, by simp [bump, hc1]⟩
  | none =>
    cases hc2 : _report_conflict [("major", args.major), ("minor", args.minor),
        ("patch", args.patch), ("version", optTruthy args.version)] with
    | some msg => exact ⟨msg, by simp [bump, hc1, hc2]⟩
    | none =>
      have hn1 : countTrue [optTruthy args.version, args.ci] ≤ 1 := by
        have h2 := (report_conflict_none _).mp hc1
        simpa using h2
      have hn2 : countTrue [args.major, args.minor, args.patch, optTruthy args.version]
          ≤ 1 := by
        have h2 := (report_conflict_none _).mp hc2
        simpa using h2
      rcases h with ⟨hv, hci⟩ | h2 | h0 | hgt
      · exfalso
        simp [countTrue, hv, hci] at hn1
      · exact absurd h2 (by omega)
      · exact ⟨"no operation specified", by simp [bump, hc1, hc2, h0]⟩
      · have h0 : countTrue (bumpOptions args) ≠ 0 := by omega
        exact ⟨"multiple operations specified", by simp [bump, hc1, hc2, h0, hgt]⟩

/-- Witness for C7: `bump --major --minor` aborts with a usage error. -/
theorem bump_conflicting_options_usage_error_witness :
    ∃ msg, bump exArgsConflict exEnv = ⟨.usageError msg, exEnv.fs, []⟩ :=
  bump_conflicting_options_usage_error exArgsConflict exEnv (Or.inr (Or.inl (by decide)))

theorem publish_foldl_aux (targets : List (String × Bool)) :
    ∀ acc : List String × Nat,
      targets.foldl (fun acc t => (acc.1 ++ [t.1], if t.2 then acc.2 else 1)) acc
        = (acc.1 ++ targets.map Prod.fst,
           if targets.all (fun t => t.2) then acc.2 else 1) := by
  induction targets with
  | nil =>
    intro acc
    simp
  | cons t ts ih =>
    intro acc
    rw [List.foldl_cons, ih]
    cases ht : t.2 with
    | false => simp [ht, List.all_cons, List.append_assoc]
    | true =>
      simp only [List.all_cons, ht, Bool.true_and, List.map_cons, List.append_assoc,
        List.singleton_append, eq_self_iff_true, if_true]

/-- Claim C8: every publish target and every test is attempted even when
an earlier one fails (the trace lists them all), and the aggregate exit
code is 0 exactly when every target succeeded, 1 otherwise. -/
theorem publish_and_test_run_all_targets (targets : List (String × Bool))
    (tests : List (String × Nat)) :
    ((_publish_loop targets).1 = targets.map Prod.fst ∧
     ((_publish_loop targets).2 = 0 ↔ ∀ t ∈ targets, t.2 = true)) ∧
    (tests ≠ [] →
      (test_handle tests).1 = tests.map Prod.fst ∧
      ((test_handle tests).2 = 0 ↔ ∀ t ∈ tests, t.2 = 0)) := by
  constructor
  · rw [_publish_loop, publish_foldl_aux]
    refine ⟨by simp, ?_⟩
    cases hall : targets.all (fun t => t.2) with
    | true =>
      rw [if_pos rfl]
      constructor
      · intro _ t ht
        have h2 := List.all_eq_true.mp hall t ht
        simpa using h2
      · intro _
        rfl
    | false =>
      rw [if_neg (by simp)]
      constructor
      · intro hc
        cases hc
      · intro hforall
        exfalso
        rcases List.all_eq_false.mp hall with ⟨t, ht, hf⟩
        exact hf (by simpa using hforall t ht)
  · intro hne
    rw [test_handle, if_neg hne]
    refine ⟨rfl, ?_⟩
    cases hall : (tests.map Prod.snd).all (· == 0) with
    | true =>
      rw [if_pos rfl]
      constructor
      · intro _ t ht
        have h2 := List.all_eq_true.mp hall t.2 (List.mem_map_of_mem Prod.snd ht)
        simpa using h2
      · intro _
        rfl
    | false =>
      rw [if_neg (by simp)]
      constructor
      · intro hc
        cases hc
      · intro hforall
        exfalso
        rcases List.all_eq_false.mp hall with ⟨x, hx, hf⟩
        rcases List.mem_map.mp hx with ⟨t, ht, rfl⟩
        exact hf (by simpa using hforall t ht)

/-- Witness for C8: the single-test case. -/
theorem publish_and_test_run_all_targets_witness :
    (test_handle [("t", 0)]).1 = [("t", 0)].map Prod.fst ∧
    ((test_handle [("t", 0)]).2 = 0 ↔ ∀ t ∈ [("t", 0)], t.2 = 0) :=
  (publish_and_test_run_all_targets [("a", true)] [("t", 0)]).2 (by decide)

/-- Claim C10: `wrap_license_text` does not preserve the words of its
input: on a line longer than the width, a word that triggers a flush of
the pending buffer is dropped. For "aaaa bbbb cccc" at width 5 the word
"bbbb" triggers the line break and is omitted entirely from the output. -/
theorem wrap_license_text_omits_flushed_word :
    wrap_license_text "aaaa bbbb cccc".data 5 = "aaaa\ncccc".data ∧
    "bbbb".data ∈ splitChar ' ' "aaaa bbbb cccc".data ∧
    ∀ line ∈ splitChar '\n' (wrap_license_text "aaaa bbbb cccc".data 5),
      ∀ w ∈ splitChar ' ' line, w ≠ "bbbb".data := by
  refine ⟨by decide, by decide, by decide⟩
